import Mathlib

/-!
Verification of the aether-host core: a shallow embedding of the
security gate (`src/security/mod.rs`), the newline-delimited JSON-RPC
transport (`src/runtime/mod.rs`), the MCP protocol client
(`src/client.rs`), the agent orchestrator (`src/agent.rs`) and the main
conversation loop (`src/main.rs`), together with theorems settling the
behavioural claims about them.

External libraries (serde_json, tokio pipes, the Groq HTTP client) are
not repository code: their behaviour is either modelled exactly where it
is fully determined (tokio `read_line` byte semantics) or taken as a
parameter (`Serde` bundles the serde_json parse/decode/print functions;
`LlmOracle` scripts completion-service replies).
-/

namespace Aether

/-- A structured JSON document, standing for `serde_json::Value`.
Numbers are modelled as integers; no claim depends on number shape. -/
inductive Json where
  | null
  | bool (b : Bool)
  | num (n : Int)
  | str (s : String)
  | arr (elems : List Json)
  | obj (fields : List (String × Json))

/-- Field lookup on a JSON object (first occurrence), `None` otherwise. -/
def Json.getField (j : Json) (key : String) : Option Json :=
  match j with
  | .obj fields => fields.lookup key
  | _ => none

/-- Extract a JSON string. -/
def Json.asString : Json → Option String
  | .str s => some s
  | _ => none

/-! ## Security gate — `src/security/mod.rs` -/

/-- `SecurityConfig` from `src/security/mod.rs`.  The source stores
`rules` in a `HashMap<String, String>`; it is modelled as an association
list with unique keys (lookup by key is the only operation used). -/
structure SecurityConfig where
  version : String
  global_policy : String
  rules : List (String × String)
deriving DecidableEq

/-- `SecurityConfig::check_permission`: a per-tool rule wins when present,
otherwise the global policy decides; both are compared to the literal
string "allow".  A pure function of the policy and the name. -/
def SecurityConfig.check_permission (cfg : SecurityConfig) (tool_name : String) : Bool :=
  match cfg.rules.lookup tool_name with
  | some policy => policy == "allow"
  | none => cfg.global_policy == "allow"

/-- Insert into an association map, replacing the value of an existing
key — the behaviour of `HashMap::insert` during deserialization. -/
def insertRule (m : List (String × String)) (k v : String) : List (String × String) :=
  match m with
  | [] => [(k, v)]
  | (k0, v0) :: rest => if k0 == k then (k0, v) :: rest else (k0, v0) :: insertRule rest k v

/-- Deserialize the `rules` object: every value must be a JSON string
(any string at all — no vocabulary check), later duplicates overwrite. -/
def rulesFromJson (fields : List (String × Json)) : Option (List (String × String)) :=
  fields.foldlM (fun m kv => (kv.2.asString).map (fun s => insertRule m kv.1 s)) []

/-- The derived `serde::Deserialize` for `SecurityConfig` as exercised by
`SecurityConfig::load`: the three fields must be present with string
(resp. string-valued-object) types; no validation of the policy strings
is performed. -/
def SecurityConfig.fromJson (j : Json) : Option SecurityConfig := do
  let v ← (j.getField "version").bind Json.asString
  let g ← (j.getField "global_policy").bind Json.asString
  let rulesJson ← j.getField "rules"
  match rulesJson with
  | .obj fields => do
      let r ← rulesFromJson fields
      pure { version := v, global_policy := g, rules := r }
  | _ => none

/-! ## Protocol types — `src/protocol/mod.rs` -/

/-- `JsonRpcRequest`.  The source uses `u64` ids; a session can never
exhaust `u64`, and debug Rust panics rather than wraps, so `Nat` is used. -/
structure JsonRpcRequest where
  jsonrpc : String
  method : String
  params : Option Json
  id : Option Nat

/-- `JsonRpcRequest::new`. -/
def JsonRpcRequest.new (method : String) (params : Option Json) (id : Option Nat) :
    JsonRpcRequest :=
  { jsonrpc := "2.0", method := method, params := params, id := id }

/-- `JsonRpcError`. -/
structure JsonRpcError where
  code : Int
  message : String
  data : Option Json

/-- `JsonRpcResponse`. -/
structure JsonRpcResponse where
  jsonrpc : String
  result : Option Json
  error : Option JsonRpcError
  id : Option Nat

/-- `ServerInfo`. -/
structure ServerInfo where
  name : String
  version : String

/-- `InitializeResult` (handshake reply payload). -/
structure InitializeResult where
  protocol_version : String
  capabilities : Json
  server_info : ServerInfo

/-- `Tool` descriptor from tool discovery. -/
structure Tool where
  name : String
  description : Option String
  input_schema : Json

/-- `ListToolsResult`. -/
structure ListToolsResult where
  tools : List Tool

/-! ## Transport — `src/runtime/mod.rs` -/

/-- `McpProcess`: the owned child-process transport.  `sent` records the
requests written to the child's stdin (each written as its serialized
form plus one newline, then flushed); `stdout` is the remaining byte
stream of the child's standard output. -/
structure McpProcess where
  sent : List JsonRpcRequest
  stdout : List Char

/-- `McpProcess::start` with the child's future output stream as the
model of the spawned process: fresh pipes, nothing sent yet. -/
def McpProcess.start (stdoutStream : List Char) : McpProcess :=
  { sent := [], stdout := stdoutStream }

/-- `McpProcess::send_request`: serialize, append a newline, write and
flush — modelled by recording the request on the sent list. -/
def McpProcess.send_request (p : McpProcess) (request : JsonRpcRequest) : McpProcess :=
  { p with sent := p.sent ++ [request] }

/-- The byte behaviour of tokio `AsyncBufReadExt::read_line`: consume
bytes up to and including the first newline (or up to end of stream) and
return them together with the rest of the stream. -/
def splitAtNewline : List Char → List Char × List Char
  | [] => ([], [])
  | c :: rest =>
    if c = '\n' then ([c], rest)
    else
      let res := splitAtNewline rest
      (c :: res.1, res.2)

/-- `McpProcess::read_line`: one buffered `read_line` call; zero bytes
read means the process closed the connection (EOF error), otherwise the
accumulated buffer — newline included when one was found — is returned. -/
def McpProcess.read_line (p : McpProcess) : Except String (String × McpProcess) :=
  let res := splitAtNewline p.stdout
  if res.1.length = 0 then .error "Process closed the connection (EOF)"
  else .ok (String.mk res.1, { p with stdout := res.2 })

/-! ## Client — `src/client.rs` -/

/-- The serde_json operations the client and orchestrator use, taken as
parameters because serde_json is an external library: parsing a wire
line into a `JsonRpcResponse`, parsing argument text into a `Json`
value, decoding handshake / tool-list result payloads, and printing a
`Json` value (`Value::to_string`). -/
structure Serde where
  fromStrResponse : String → Option JsonRpcResponse
  fromStrValue : String → Option Json
  decodeInit : Json → Option InitializeResult
  decodeTools : Json → Option ListToolsResult
  toStringValue : Json → String

/-- `McpClient`: one transport, the request-id counter, the policy. -/
structure McpClient where
  transport : McpProcess
  request_id_counter : Nat
  security : SecurityConfig

/-- `McpClient::new`: counter starts at 0. -/
def McpClient.new (transport : McpProcess) (config : SecurityConfig) : McpClient :=
  { transport := transport, request_id_counter := 0, security := config }

/-- `McpClient::next_id`: pre-increment, so the first id handed out is 1. -/
def McpClient.next_id (c : McpClient) : McpClient × Nat :=
  ({ c with request_id_counter := c.request_id_counter + 1 }, c.request_id_counter + 1)

/-- The `initialize` params payload, the fixed value produced by
`serde_json::to_value(InitializeParams { .. })` in `McpClient::initialize`
(camelCase field renaming, `experimental: None` serialized as null). -/
def handshakeParamsJson : Json :=
  Json.obj [("protocolVersion", Json.str "2024-11-05"),
            ("capabilities", Json.obj [("experimental", Json.null)]),
            ("clientInfo", Json.obj [("name", Json.str "AETHER"),
                                     ("version", Json.str "0.1.0")])]

/-- The response-decoding tail of `McpClient::initialize` (steps D–F): a
pure function of the wire line, mutating nothing. -/
def handshakeDecode (serde : Serde) (response_str : String) : Except String Unit :=
  match serde.fromStrResponse response_str with
  | none => .error "Failed to parse init response from tool"
  | some response =>
    match response.error with
    | some err =>
        .error ("MCP Init Error: " ++ err.message ++ " (Code: " ++ toString err.code ++ ")")
    | none =>
      match response.result with
      | some result =>
        match serde.decodeInit result with
        | none => .error "Tool sent invalid initialize result format"
        | some _ => .ok ()
      | none => .error "Tool returned no result for initialize"

/-- The write-then-blocking-read cycle shared by all three protocol
operations: send one request, read one response line; a read failure
propagates after the send already happened. -/
def McpClient.exchange (c : McpClient) (request : JsonRpcRequest) :
    McpClient × Except String String :=
  let c2 := { c with transport := c.transport.send_request request }
  match c2.transport.read_line with
  | .error e => (c2, .error e)
  | .ok st => ({ c2 with transport := st.2 }, .ok st.1)

/-- `McpClient::initialize` (the handshake): build the params, take the
next id, send one request, read one line, decode.  The console banner
printed on success has no observable effect on the modelled state. -/
def McpClient.handshake (serde : Serde) (c : McpClient) : McpClient × Except String Unit :=
  let step := c.next_id
  let request := JsonRpcRequest.new "initialize" (some handshakeParamsJson) (some step.2)
  let ex := step.1.exchange request
  match ex.2 with
  | .error e => (ex.1, .error e)
  | .ok response_str => (ex.1, handshakeDecode serde response_str)

/-- The response-decoding tail of `McpClient::list_tools`: note the
source only distinguishes "has a result" from everything else here. -/
def listToolsDecode (serde : Serde) (response_str : String) : Except String (List Tool) :=
  match serde.fromStrResponse response_str with
  | none => .error "Failed to parse tools list response"
  | some response =>
    match response.result with
    | some result =>
      match serde.decodeTools result with
      | none => .error "Invalid tools list format"
      | some tools_result => .ok tools_result.tools
    | none => .error "Server returned error or no result"

/-- `McpClient::list_tools`: next id, one send, one read, decode. -/
def McpClient.list_tools (serde : Serde) (c : McpClient) :
    McpClient × Except String (List Tool) :=
  let step := c.next_id
  let request := JsonRpcRequest.new "tools/list" none (some step.2)
  let ex := step.1.exchange request
  match ex.2 with
  | .error e => (ex.1, .error e)
  | .ok response_str => (ex.1, listToolsDecode serde response_str)

/-- The permission-denied message of `McpClient::call_tool`; the source
wraps the tool name in single quotes, elided here. -/
def permissionDeniedMsg (tool_name : String) : String :=
  "SECURITY ALERT: Tool " ++ tool_name ++ " is blocked by permissions.json"

/-- The `tools/call` request built by `McpClient::call_tool`. -/
def toolsCallRequest (tool_name : String) (arguments : Json) (id : Nat) : JsonRpcRequest :=
  JsonRpcRequest.new "tools/call"
    (some (Json.obj [("name", Json.str tool_name), ("arguments", arguments)])) (some id)

/-- The response-decoding tail of `McpClient::call_tool` (step 4). -/
def callToolDecode (serde : Serde) (response_str : String) : Except String Json :=
  match serde.fromStrResponse response_str with
  | none => .error "Failed to parse tools call response"
  | some response =>
    match response.error with
    | some err => .error ("Tool Execution Error: " ++ err.message)
    | none =>
      match response.result with
      | some result => .ok result
      | none => .error "Tool returned no result"

/-- `McpClient::call_tool`: the security check comes first and a denial
returns before anything touches the transport or the id counter;
otherwise next id, one send, one read, decode. -/
def McpClient.call_tool (serde : Serde) (c : McpClient) (tool_name : String)
    (arguments : Json) : McpClient × Except String Json :=
  if !(c.security.check_permission tool_name) then
    (c, .error (permissionDeniedMsg tool_name))
  else
    let step := c.next_id
    let request := toolsCallRequest tool_name arguments step.2
    let ex := step.1.exchange request
    match ex.2 with
    | .error e => (ex.1, .error e)
    | .ok response_str => (ex.1, callToolDecode serde response_str)

/-! ## Completion service and display surface boundaries -/

/-- `FunctionCall` (`src/llm.rs`): arguments arrive as raw JSON text. -/
structure FunctionCall where
  name : String
  arguments : String
deriving DecidableEq

/-- `ToolCall` (`src/llm.rs`); `rtype` stands for the source's `r#type`. -/
structure ToolCall where
  id : String
  rtype : String
  function : FunctionCall
deriving DecidableEq

/-- `Message` (`src/llm.rs`): one conversation-transcript entry. -/
structure Message where
  role : String
  content : Option String
  tool_calls : Option (List ToolCall)
  tool_call_id : Option String
deriving DecidableEq

/-- `UiMessage` (`src/tui.rs`): events on the display-surface channel. -/
inductive UiMessage where
  | User (s : String)
  | Ai (s : String)
  | Log (s : String)
  | Error (s : String)
deriving DecidableEq

/-- Number of `Ai` events in a display-event list. -/
def countAi (l : List UiMessage) : Nat :=
  l.countP fun m => match m with | .Ai _ => true | _ => false

/-- Number of `Error` events in a display-event list. -/
def countError (l : List UiMessage) : Nat :=
  l.countP fun m => match m with | .Error _ => true | _ => false

/-- The completion service (`LlmClient::send_completion`) as a scripted
oracle: `replies` are consumed in order, `requests` logs each call made
together with the tool list it carried.  An exhausted script behaves as
an API failure. -/
structure LlmOracle where
  replies : List (Except String Message)
  requests : List (List Message × List Tool)

/-- One completion call against the oracle. -/
def LlmOracle.send (o : LlmOracle) (msgs : List Message) (tools : List Tool) :
    LlmOracle × Except String Message :=
  match o.replies with
  | [] => ({ o with requests := o.requests ++ [(msgs, tools)] },
           .error "API Error: no scripted reply")
  | r :: rest => ({ replies := rest, requests := o.requests ++ [(msgs, tools)] }, r)

/-- The string fed back to the transcript for one tool-call outcome:
stringify the result document on success, `"Error: <message>"` on
failure (the shared shape of the two match arms in `Agent::cycle` and in
`main`'s per-call loop). -/
def toolCallResultStr (serde : Serde) (res : Except String Json) : String :=
  match res with
  | .ok v => serde.toStringValue v
  | .error e => "Error: " ++ e

/-- The `tool`-role transcript entry fed back after a tool call. -/
def toolResultMessage (call : ToolCall) (result_str : String) : Message :=
  { role := "tool", content := some result_str, tool_calls := none,
    tool_call_id := some call.id }

/-- A `user`-role transcript entry. -/
def userMessage (user_input : String) : Message :=
  { role := "user", content := some user_input, tool_calls := none, tool_call_id := none }

/-! ## Orchestrator — `src/agent.rs` -/

/-- The mutable state of `Agent` visible to the claims: the protocol
client, the completion-service oracle, and the events sent so far on the
display channel (unbounded channel sends never fail, so appending to a
list is exact). -/
structure AgentState where
  client : McpClient
  llm : LlmOracle
  events : List UiMessage

/-- The body of the per-call loop in `Agent::cycle`: log, parse the
argument text (substituting an empty object on failure), execute the
call, stringify success or format failure, log, append the `tool`
message. -/
def Agent.processCall (serde : Serde) (acc : AgentState × List Message) (call : ToolCall) :
    AgentState × List Message :=
  let st := acc.1
  let ev1 := st.events ++
    [UiMessage.Log ("EXEC: " ++ call.function.name ++ "(" ++ call.function.arguments ++ ")")]
  let args := (serde.fromStrValue call.function.arguments).getD (Json.obj [])
  let step := st.client.call_tool serde call.function.name args
  let result_str := toolCallResultStr serde step.2
  ({ client := step.1, llm := st.llm,
     events := ev1 ++ [UiMessage.Log ("RESULT: " ++ result_str)] },
   acc.2 ++ [toolResultMessage call result_str])

/-- The full per-call loop of `Agent::cycle`, in the order received. -/
def Agent.processCalls (serde : Serde) (st : AgentState) (history : List Message)
    (calls : List ToolCall) : AgentState × List Message :=
  calls.foldl (Agent.processCall serde) (st, history)

/-- `Agent::cycle`: one conversation turn.  Returns the new state, the
new transcript, and the `Result` the source returns (the transcript is a
`&mut Vec` in the source, so entries appended before a failure stay). -/
def Agent.cycle (serde : Serde) (st : AgentState) (history : List Message)
    (tools : List Tool) : AgentState × List Message × Except String Unit :=
  let ask := st.llm.send history tools
  match ask.2 with
  | .error e => ({ st with llm := ask.1 }, history, .error e)
  | .ok response =>
    let history1 := history ++ [response]
    match response.tool_calls with
    | some tool_calls =>
      let st1 : AgentState :=
        { st with
          llm := ask.1
          events := st.events ++
            [UiMessage.Log ("Tools Requested: " ++ toString tool_calls.length)] }
      let ran := Agent.processCalls serde st1 history1 tool_calls
      let ask2 := ran.1.llm.send ran.2 []
      let st2 := { ran.1 with llm := ask2.1 }
      match ask2.2 with
      | .error e => (st2, ran.2, .error e)
      | .ok final_res =>
        let text := final_res.content.getD "No content"
        ({ st2 with events := st2.events ++ [UiMessage.Ai text] },
         ran.2 ++ [final_res], .ok ())
    | none =>
      let text := response.content.getD "No content"
      ({ st with llm := ask.1, events := st.events ++ [UiMessage.Ai text] },
       history1, .ok ())

/-- One iteration of the input loop in `Agent::run`: log "Thinking...",
append the user message, run the cycle, report a cycle error as an
`Error` event. -/
def Agent.turn (serde : Serde) (tools : List Tool) (acc : AgentState × List Message)
    (user_input : String) : AgentState × List Message :=
  let st0 := { acc.1 with events := acc.1.events ++ [UiMessage.Log "Thinking..."] }
  let history1 := acc.2 ++ [userMessage user_input]
  let ran := Agent.cycle serde st0 history1 tools
  match ran.2.2 with
  | .ok _ => (ran.1, ran.2.1)
  | .error e =>
    ({ ran.1 with events := ran.1.events ++ [UiMessage.Error ("Cycle Error: " ++ e)] },
     ran.2.1)

/-- The system prompt `Agent::run` seeds the transcript with. -/
def agentSystemMessage : Message :=
  { role := "system", content := some "You are AETHER. Be concise. Use tools wisely.",
    tool_calls := none, tool_call_id := none }

/-- `Agent::run`: startup log, tool discovery (a failure here reports a
critical error and stops the agent before any input is consumed), then
the conversation loop over the user-input channel contents. -/
def Agent.run (serde : Serde) (st : AgentState) (inputs : List String) :
    AgentState × List Message :=
  let st0 := { st with events := st.events ++ [UiMessage.Log "Agent System Online."] }
  let disc := st0.client.list_tools serde
  let st1 := { st0 with client := disc.1 }
  match disc.2 with
  | .error e =>
    ({ st1 with events := st1.events ++ [UiMessage.Error ("Critical Tool Failure: " ++ e)] },
     [])
  | .ok tools =>
    let st2 := { st1 with events := st1.events ++
      [UiMessage.Log ("Tools Discovered: " ++ toString tools.length)] }
    inputs.foldl (Agent.turn serde tools) (st2, [agentSystemMessage])

/-! ## Main loop — `src/main.rs` -/

/-- The state threaded through the conversation loop in `main`. -/
structure MainState where
  client : McpClient
  llm : LlmOracle
  events : List UiMessage
  history : List Message

/-- The body of the per-call loop in `main`: log, parse the argument
text (empty object on failure), execute, log the result or report a
blocked/failed call, append the `tool` message. -/
def mainProcessCall (serde : Serde) (st : MainState) (call : ToolCall) : MainState :=
  let ev1 := st.events ++
    [UiMessage.Log ("EXEC: " ++ call.function.name ++ "(" ++ call.function.arguments ++ ")")]
  let args := (serde.fromStrValue call.function.arguments).getD (Json.obj [])
  let step := st.client.call_tool serde call.function.name args
  let result_str := toolCallResultStr serde step.2
  let ev2 := match step.2 with
    | .ok _ => UiMessage.Log ("RESULT: " ++ result_str)
    | .error e => UiMessage.Error ("Tool Blocked/Failed: " ++ e)
  { st with
    client := step.1
    events := ev1 ++ [ev2]
    history := st.history ++ [toolResultMessage call result_str] }

/-- The final-answer step of `main` after the tool calls: one completion
request with an empty tool list; only a successful reply produces an
`Ai` event and a transcript entry — a failure here is silently dropped
(`if let Ok(final_res) = ...` with no else arm). -/
def mainFinalAnswer (st : MainState) : MainState :=
  let ask := st.llm.send st.history []
  let st1 := { st with llm := ask.1 }
  match ask.2 with
  | .ok final_res =>
    let text := final_res.content.getD ""
    { st1 with
      events := st1.events ++ [UiMessage.Ai text]
      history := st1.history ++ [final_res] }
  | .error _ => st1

/-- One iteration of the conversation loop in `main` (one user input):
log, append the user message, ask the model (an error here reports an
`LLM Error` event and continues the loop), then either the tool-use
branch (per-call loop followed by `mainFinalAnswer`) or a direct reply. -/
def mainTurn (serde : Serde) (tools : List Tool) (st : MainState)
    (user_input : String) : MainState :=
  let st0 := { st with events := st.events ++ [UiMessage.Log "Processing Request..."],
                       history := st.history ++ [userMessage user_input] }
  let ask := st0.llm.send st0.history tools
  let st1 := { st0 with llm := ask.1 }
  match ask.2 with
  | .error e => { st1 with events := st1.events ++ [UiMessage.Error ("LLM Error: " ++ e)] }
  | .ok response =>
    let st2 := { st1 with history := st1.history ++ [response] }
    match response.tool_calls with
    | some tool_calls =>
      let st3 := { st2 with events := st2.events ++
        [UiMessage.Log ("AI Invoking " ++ toString tool_calls.length ++ " Tools...")] }
      let st4 := tool_calls.foldl (mainProcessCall serde) st3
      mainFinalAnswer st4
    | none =>
      let text := response.content.getD ""
      { st2 with events := st2.events ++ [UiMessage.Ai text] }

/-- The startup sequence of `main`'s spawned task up to the conversation
loop.  Policy load, process spawn and completion-client construction are
external effects (file system, OS, environment) and enter as parameters;
handshake and tool discovery run against the modelled client.  The
returned option is `some` exactly when the conversation loop is entered,
carrying the client and tool list it is entered with. -/
def mainStartup (serde : Serde) (secLoad : Except String SecurityConfig)
    (spawnResult : Except String McpProcess) (llmNew : Except String Unit) :
    List UiMessage × Option (McpClient × List Tool) :=
  let events := [UiMessage.Log "Initializing Core Systems..."]
  match secLoad with
  | .error e => (events ++ [UiMessage.Error ("Security Load Fail: " ++ e)], none)
  | .ok security =>
    match spawnResult with
    | .error e => (events ++ [UiMessage.Error ("Tool Spawn Fail: " ++ e)], none)
    | .ok process =>
      let hs := (McpClient.new process security).handshake serde
      match hs.2 with
      | .error e => (events ++ [UiMessage.Error ("Handshake Fail: " ++ e)], none)
      | .ok _ =>
        let disc := hs.1.list_tools serde
        let loaded := match disc.2 with
          | .ok t => (events, t)
          | .error e => (events ++ [UiMessage.Error ("Tool List Fail: " ++ e)], ([] : List Tool))
        let events2 := loaded.1 ++ [UiMessage.Log ("Tools Loaded: " ++ toString loaded.2.length)]
        match llmNew with
        | .error e => (events2 ++ [UiMessage.Error ("Groq Auth Fail: " ++ e)], none)
        | .ok _ => (events2 ++ [UiMessage.Log "Neural Engine Online."], some (disc.1, loaded.2))

/-! ## Client operation traces (for the request-id invariant) -/

/-- One protocol operation issued on a client. -/
inductive ClientOp where
  | handshakeOp
  | listToolsOp
  | callToolOp (name : String) (args : Json)

/-- Run one operation, keeping the client state it leaves behind. -/
def McpClient.runOp (serde : Serde) (c : McpClient) : ClientOp → McpClient
  | .handshakeOp => (c.handshake serde).1
  | .listToolsOp => (c.list_tools serde).1
  | .callToolOp name args => (c.call_tool serde name args).1

/-- Run a sequence of operations left to right. -/
def McpClient.runOps (serde : Serde) (c : McpClient) (ops : List ClientOp) : McpClient :=
  ops.foldl (McpClient.runOp serde) c

/-! ## Concrete fixtures used by witnesses and counterexamples -/

/-- A deny-by-default policy with one allowed tool, the §8 test policy. -/
def cfgDenyDefault : SecurityConfig :=
  { version := "1.0", global_policy := "deny", rules := [("calculate_sum", "allow")] }

/-- A policy whose global default is the wrong-case string "ALLOW". -/
def cfgGlobalCaps : SecurityConfig :=
  { version := "1.0", global_policy := "ALLOW", rules := [] }

/-- A permissions document whose single rule value is the wrong-case
string "Allow". -/
def malformedAllowJson : Json :=
  Json.obj [("version", Json.str "1.0"),
            ("global_policy", Json.str "deny"),
            ("rules", Json.obj [("calculate_sum", Json.str "Allow")])]

/-- The configuration `malformedAllowJson` deserializes to. -/
def cfgMalformedAllow : SecurityConfig :=
  { version := "1.0", global_policy := "deny", rules := [("calculate_sum", "Allow")] }

/-- A serde instantiation on which every parse fails. -/
def serdeNoParse : Serde :=
  { fromStrResponse := fun _ => none
    fromStrValue := fun _ => none
    decodeInit := fun _ => none
    decodeTools := fun _ => none
    toStringValue := fun _ => "" }

/-- A serde instantiation whose wire lines all parse to a successful
result payload and whose handshake decoding succeeds. -/
def serdeAllOk : Serde :=
  { fromStrResponse := fun _ =>
      some { jsonrpc := "2.0", result := some (Json.str "The sum is 4"),
             error := none, id := some 1 }
    fromStrValue := fun _ => none
    decodeInit := fun _ =>
      some { protocol_version := "2024-11-05", capabilities := Json.obj [],
             server_info := { name := "MockTool", version := "1.0" } }
    decodeTools := fun _ => some { tools := [] }
    toStringValue := fun _ => "\x22The sum is 4\x22" }

/-! ## Helper lemmas -/

lemma countAi_append (l1 l2 : List UiMessage) :
    countAi (l1 ++ l2) = countAi l1 + countAi l2 :=
  List.countP_append _ _ _

lemma countError_append (l1 l2 : List UiMessage) :
    countError (l1 ++ l2) = countError l1 + countError l2 :=
  List.countP_append _ _ _

lemma countAi_log (s : String) : countAi [UiMessage.Log s] = 0 := rfl

lemma countAi_err (s : String) : countAi [UiMessage.Error s] = 0 := rfl

lemma countAi_ai (s : String) : countAi [UiMessage.Ai s] = 1 := rfl

lemma countError_log (s : String) : countError [UiMessage.Log s] = 0 := rfl

lemma countError_err (s : String) : countError [UiMessage.Error s] = 1 := rfl

lemma countError_ai (s : String) : countError [UiMessage.Ai s] = 0 := rfl

lemma splitAtNewline_no_newline (l : List Char) (h : '\n' ∉ l) :
    splitAtNewline l = (l, []) := by
  induction l with
  | nil => rfl
  | cons c rest ih =>
    have hc : ¬ (c = '\n') := fun hc => h (hc ▸ List.mem_cons_self c rest)
    have hr : '\n' ∉ rest := fun hm => h (List.mem_cons_of_mem _ hm)
    simp [splitAtNewline, hc, ih hr]

lemma splitAtNewline_newline (pre rest : List Char) (h : '\n' ∉ pre) :
    splitAtNewline (pre ++ '\n' :: rest) = (pre ++ ['\n'], rest) := by
  induction pre with
  | nil => simp [splitAtNewline]
  | cons c pre ih =>
    have hc : ¬ (c = '\n') := fun hc => h (hc ▸ List.mem_cons_self c pre)
    have hp : '\n' ∉ pre := fun hm => h (List.mem_cons_of_mem _ hm)
    simp [splitAtNewline, hc, ih hp]

lemma splitAtNewline_fst_nil_iff (l : List Char) :
    (splitAtNewline l).1 = [] ↔ l = [] := by
  cases l with
  | nil => simp [splitAtNewline]
  | cons c rest =>
    simp only [splitAtNewline]
    constructor
    · intro h
      by_cases hc : c = '\n' <;> simp [hc] at h
    · intro h
      exact absurd h (List.cons_ne_nil c rest)

lemma read_line_ok_sent (p : McpProcess) (s : String) (p' : McpProcess)
    (h : p.read_line = .ok (s, p')) : p'.sent = p.sent := by
  unfold McpProcess.read_line at h
  by_cases hl : (splitAtNewline p.stdout).1.length = 0
  · simp [hl] at h
  · simp only [hl, if_false, Except.ok.injEq, Prod.mk.injEq] at h
    rw [← h.2]

lemma exchange_parts (c : McpClient) (request : JsonRpcRequest) :
    (c.exchange request).1.transport.sent = c.transport.sent ++ [request] ∧
    (c.exchange request).1.request_id_counter = c.request_id_counter ∧
    (c.exchange request).1.security = c.security := by
  unfold McpClient.exchange
  dsimp only
  split
  · exact ⟨rfl, rfl, rfl⟩
  · rename_i st heq
    have hs := read_line_ok_sent _ st.1 st.2 heq
    exact ⟨hs, rfl, rfl⟩

lemma handshake_fst (serde : Serde) (c : McpClient) :
    (c.handshake serde).1 =
      (({ c with request_id_counter := c.request_id_counter + 1 }).exchange
        (JsonRpcRequest.new "initialize" (some handshakeParamsJson)
          (some (c.request_id_counter + 1)))).1 := by
  unfold McpClient.handshake McpClient.next_id
  dsimp only
  split <;> rfl

lemma list_tools_fst (serde : Serde) (c : McpClient) :
    (c.list_tools serde).1 =
      (({ c with request_id_counter := c.request_id_counter + 1 }).exchange
        (JsonRpcRequest.new "tools/list" none (some (c.request_id_counter + 1)))).1 := by
  unfold McpClient.list_tools McpClient.next_id
  dsimp only
  split <;> rfl

lemma call_tool_denied_eq (serde : Serde) (c : McpClient) (name : String) (args : Json)
    (h : c.security.check_permission name = false) :
    c.call_tool serde name args = (c, .error (permissionDeniedMsg name)) := by
  unfold McpClient.call_tool
  rw [h]
  rfl

lemma call_tool_allowed_fst (serde : Serde) (c : McpClient) (name : String) (args : Json)
    (h : c.security.check_permission name = true) :
    (c.call_tool serde name args).1 =
      (({ c with request_id_counter := c.request_id_counter + 1 }).exchange
        (toolsCallRequest name args (c.request_id_counter + 1))).1 := by
  unfold McpClient.call_tool McpClient.next_id
  rw [h]
  rw [if_neg (by decide : ¬ ((!true) = true))]
  dsimp only
  split <;> rfl

lemma range'_snoc (n : Nat) : ∀ s : Nat, List.range' s (n + 1) = List.range' s n ++ [s + n] := by
  induction n with
  | zero => intro s; simp [List.range']
  | succ n ih =>
    intro s
    rw [List.range'_succ s (n + 1) 1, ih (s + 1), List.range'_succ s n 1]
    simp [Nat.add_assoc, Nat.add_comm 1 n]

/-- Every operation either leaves the client untouched (a denied
`call_tool`) or sends exactly one request carrying id `counter + 1`
while bumping the counter to match. -/
lemma runOp_parts (serde : Serde) (c : McpClient) (op : ClientOp) :
    ((c.runOp serde op).transport.sent = c.transport.sent ∧
     (c.runOp serde op).request_id_counter = c.request_id_counter) ∨
    (∃ req : JsonRpcRequest, req.id = some (c.request_id_counter + 1) ∧
      (c.runOp serde op).transport.sent = c.transport.sent ++ [req] ∧
      (c.runOp serde op).request_id_counter = c.request_id_counter + 1) := by
  cases op with
  | handshakeOp =>
    right
    refine ⟨JsonRpcRequest.new "initialize" (some handshakeParamsJson)
      (some (c.request_id_counter + 1)), rfl, ?_, ?_⟩
    · show ((c.handshake serde).1).transport.sent = _
      rw [handshake_fst serde c]
      exact (exchange_parts _ _).1
    · show ((c.handshake serde).1).request_id_counter = _
      rw [handshake_fst serde c]
      exact (exchange_parts _ _).2.1
  | listToolsOp =>
    right
    refine ⟨JsonRpcRequest.new "tools/list" none (some (c.request_id_counter + 1)),
      rfl, ?_, ?_⟩
    · show ((c.list_tools serde).1).transport.sent = _
      rw [list_tools_fst serde c]
      exact (exchange_parts _ _).1
    · show ((c.list_tools serde).1).request_id_counter = _
      rw [list_tools_fst serde c]
      exact (exchange_parts _ _).2.1
  | callToolOp name args =>
    by_cases hp : c.security.check_permission name = true
    · right
      refine ⟨toolsCallRequest name args (c.request_id_counter + 1), rfl, ?_, ?_⟩
      · show ((c.call_tool serde name args).1).transport.sent = _
        rw [call_tool_allowed_fst serde c name args hp]
        exact (exchange_parts _ _).1
      · show ((c.call_tool serde name args).1).request_id_counter = _
        rw [call_tool_allowed_fst serde c name args hp]
        exact (exchange_parts _ _).2.1
    · left
      have hd := call_tool_denied_eq serde c name args (Bool.not_eq_true _ ▸ hp)
      show ((c.call_tool serde name args).1).transport.sent = _ ∧
        ((c.call_tool serde name args).1).request_id_counter = _
      rw [hd]
      exact ⟨rfl, rfl⟩

/-- The id bookkeeping invariant: the ids on the wire so far are exactly
`1, 2, …, counter` in order. -/
lemma runOps_ids (serde : Serde) (ops : List ClientOp) :
    ∀ c : McpClient,
      c.transport.sent.map JsonRpcRequest.id =
        (List.range' 1 c.request_id_counter).map some →
      (McpClient.runOps serde c ops).transport.sent.map JsonRpcRequest.id =
        (List.range' 1 (McpClient.runOps serde c ops).request_id_counter).map some := by
  induction ops with
  | nil => intro c h; exact h
  | cons op ops ih =>
    intro c h
    have hstep : McpClient.runOps serde c (op :: ops) =
        McpClient.runOps serde (c.runOp serde op) ops := rfl
    rw [hstep]
    apply ih
    rcases runOp_parts serde c op with ⟨h1, h2⟩ | ⟨req, hid, h1, h2⟩
    · rw [h1, h2]; exact h
    · rw [h1, h2, List.map_append, h, range'_snoc c.request_id_counter 1, List.map_append]
      simp [hid, Nat.add_comm]

/-! ## C9 — request ids form the sequence 1, 2, 3, … -/

/-- C9: running any sequence of protocol operations on a freshly
constructed client, the ids attached to the requests actually sent are
exactly `1, 2, …, counter` in order — the first request sent carries id
1, and every subsequent request carries a strictly greater id. -/
theorem request_ids_sequential (serde : Serde) (stdoutStream : List Char)
    (cfg : SecurityConfig) (ops : List ClientOp) :
    List.map JsonRpcRequest.id
        (McpClient.runOps serde (McpClient.new (McpProcess.start stdoutStream) cfg)
          ops).transport.sent =
      List.map some
        (List.range' 1
          (McpClient.runOps serde (McpClient.new (McpProcess.start stdoutStream) cfg)
            ops).request_id_counter) ∧
    List.Pairwise (· < ·)
      (List.range' 1
        (McpClient.runOps serde (McpClient.new (McpProcess.start stdoutStream) cfg)
          ops).request_id_counter) := by
  constructor
  · exact runOps_ids serde ops (McpClient.new (McpProcess.start stdoutStream) cfg) rfl
  · exact List.pairwise_lt_range' 1 _

/-! ## C1 — the Security Gate verdict -/

/-- C1: for every policy and tool name, a present rule decides the
verdict as `rule == allow` (the global default is irrelevant), and an
absent rule leaves the verdict to `global_default == allow`.  The check
is embedded as a pure Lean function of the policy and the name. -/
theorem check_permission_spec (cfg : SecurityConfig) (name : String) :
    (∀ rule, cfg.rules.lookup name = some rule →
      cfg.check_permission name = (rule == "allow")) ∧
    (cfg.rules.lookup name = none →
      cfg.check_permission name = (cfg.global_policy == "allow")) := by
  constructor
  · intro rule h
    unfold SecurityConfig.check_permission
    rw [h]
  · intro h
    unfold SecurityConfig.check_permission
    rw [h]

/-- Witness for C1 at the §8 test policy. -/
theorem check_permission_spec_witness :
    cfgDenyDefault.check_permission "calculate_sum" = ("allow" == "allow") ∧
    cfgDenyDefault.check_permission "other_tool" = ("deny" == "allow") :=
  ⟨(check_permission_spec cfgDenyDefault "calculate_sum").1 "allow" (by decide),
   (check_permission_spec cfgDenyDefault "other_tool").2 (by decide)⟩

/-! ## C2 — denied calls never touch the transport -/

/-- C2: when the gate denies the tool name, `call_tool` returns the
permission-denied error carrying the name and the whole client — the
transport (nothing sent, nothing read) and the id counter included — is
unchanged. -/
theorem call_tool_denied (serde : Serde) (c : McpClient) (name : String) (args : Json)
    (h : c.security.check_permission name = false) :
    c.call_tool serde name args = (c, .error (permissionDeniedMsg name)) := by
  unfold McpClient.call_tool
  rw [h]
  rfl

/-- Witness for C2: a concrete denied call leaves the client untouched. -/
theorem call_tool_denied_witness :
    McpClient.call_tool serdeNoParse
        (McpClient.new (McpProcess.start []) cfgDenyDefault) "other_tool" (Json.obj []) =
      (McpClient.new (McpProcess.start []) cfgDenyDefault,
       .error (permissionDeniedMsg "other_tool")) :=
  call_tool_denied serdeNoParse (McpClient.new (McpProcess.start []) cfgDenyDefault)
    "other_tool" (Json.obj []) (by decide)

/-! ## C10 — case-sensitive verdict strings, no load-time validation -/

/-- C10: verdicts compare the stored strings to the exact text "allow":
any other rule value (wrong case, misspelling, arbitrary text) denies,
any other global value denies for unlisted tools; and deserialization
accepts such a document without complaint, so a malformed allow entry
loads successfully and then silently denies the tool. -/
theorem policy_strings_case_sensitive :
    (∀ (cfg : SecurityConfig) (name v : String),
      cfg.rules.lookup name = some v → v ≠ "allow" →
      cfg.check_permission name = false) ∧
    (∀ (cfg : SecurityConfig) (name : String),
      cfg.rules.lookup name = none → cfg.global_policy ≠ "allow" →
      cfg.check_permission name = false) ∧
    SecurityConfig.fromJson malformedAllowJson = some cfgMalformedAllow ∧
    cfgMalformedAllow.check_permission "calculate_sum" = false := by
  refine ⟨?_, ?_, by decide, by decide⟩
  · intro cfg name v h hv
    unfold SecurityConfig.check_permission
    rw [h]
    exact beq_eq_false_iff_ne.mpr hv
  · intro cfg name h hg
    unfold SecurityConfig.check_permission
    rw [h]
    exact beq_eq_false_iff_ne.mpr hg

/-- Witness for C10: the wrong-case rule value "Allow" and the
wrong-case global value "ALLOW" both silently deny. -/
theorem policy_strings_case_sensitive_witness :
    cfgMalformedAllow.check_permission "calculate_sum" = false ∧
    cfgGlobalCaps.check_permission "any_tool" = false :=
  ⟨policy_strings_case_sensitive.1 cfgMalformedAllow "calculate_sum" "Allow"
      (by decide) (by decide),
   policy_strings_case_sensitive.2.1 cfgGlobalCaps "any_tool" (by decide) (by decide)⟩

/-! ## C6 — what `read_line` returns for a newline-terminated line -/

/-- Counterexample to C6 as stated: on the stream "hi\n" the transport
returns the line including the newline terminator, not the bare text. -/
theorem read_line_full_line_cex :
    (McpProcess.start ['h', 'i', '\n']).read_line =
      .ok ("hi\n", { sent := [], stdout := [] }) ∧ "hi\n" ≠ "hi" := by
  exact ⟨rfl, by decide⟩

/-- C6 (amended): for every input stream whose available bytes contain a
newline, `read_line` returns the text of the first line including its
newline terminator (tokio's `read_line` appends the delimiter to the
buffer and the source never trims it), consuming exactly that line. -/
theorem read_line_full_line (sent : List JsonRpcRequest) (pre rest : List Char)
    (h : '\n' ∉ pre) :
    McpProcess.read_line { sent := sent, stdout := pre ++ '\n' :: rest } =
      .ok (String.mk (pre ++ ['\n']), { sent := sent, stdout := rest }) := by
  unfold McpProcess.read_line
  rw [splitAtNewline_newline pre rest h]
  simp

/-- Witness for C6 (amended) on the stream "hi\nrest". -/
theorem read_line_full_line_witness :
    McpProcess.read_line { sent := [], stdout := ['h', 'i', '\n', 'r'] } =
      .ok (String.mk ['h', 'i', '\n'], { sent := [], stdout := ['r'] }) :=
  read_line_full_line [] ['h', 'i'] ['r'] (by decide)

/-! ## C7 — when `read_line` reports the closed (EOF) error -/

/-- Counterexample to C7 as stated: a stream that ends after "hi" with
no newline is returned as a successful partial line, not as the closed
error the claim requires for every end-of-stream-before-newline case. -/
theorem read_line_partial_cex :
    (McpProcess.start ['h', 'i']).read_line =
      .ok ("hi", { sent := [], stdout := [] }) := rfl

/-- C7 (amended): the closed (EOF) error is returned exactly when the
stream is already exhausted — zero bytes available; if bytes remain but
end-of-stream arrives before any newline, the partial text is returned
as a successful line. -/
theorem read_line_closed_spec (p : McpProcess) :
    (p.read_line = .error "Process closed the connection (EOF)" ↔ p.stdout = []) ∧
    (p.stdout ≠ [] → '\n' ∉ p.stdout →
      p.read_line = .ok (String.mk p.stdout, { p with stdout := [] })) := by
  constructor
  · unfold McpProcess.read_line
    constructor
    · intro h
      by_cases hl : (splitAtNewline p.stdout).1.length = 0
      · exact (splitAtNewline_fst_nil_iff p.stdout).mp (List.length_eq_zero.mp hl)
      · simp [hl] at h
    · intro h
      have : (splitAtNewline p.stdout).1.length = 0 := by
        rw [(splitAtNewline_fst_nil_iff p.stdout).mpr h]
        rfl
      simp [this]
  · intro hne hnl
    unfold McpProcess.read_line
    rw [splitAtNewline_no_newline p.stdout hnl]
    have : ¬ (p.stdout.length = 0) := fun h => hne (List.length_eq_zero.mp h)
    simp [this]

/-- Witness for C7 (amended): the two behaviours at the empty stream and
at the newline-free stream "hi". -/
theorem read_line_closed_spec_witness :
    (McpProcess.read_line { sent := [], stdout := [] } =
      .error "Process closed the connection (EOF)") ∧
    (McpProcess.read_line { sent := [], stdout := ['h', 'i'] } =
      .ok (String.mk ['h', 'i'], { sent := [], stdout := [] })) :=
  ⟨(read_line_closed_spec { sent := [], stdout := [] }).1.mpr rfl,
   (read_line_closed_spec { sent := [], stdout := ['h', 'i'] }).2
     (by decide) (by decide)⟩

/-! ## Helper lemmas for the orchestrator proofs -/

lemma llm_send_of_replies (o : LlmOracle) (r : Except String Message)
    (rest : List (Except String Message)) (h : o.replies = r :: rest)
    (msgs : List Message) (tools : List Tool) :
    o.send msgs tools =
      ({ replies := rest, requests := o.requests ++ [(msgs, tools)] }, r) := by
  unfold LlmOracle.send
  rw [h]

/-- Shorthand for the arguments value the per-call loops hand to
`call_tool` after parsing the raw argument text. -/
def parsedArgs (serde : Serde) (call : ToolCall) : Json :=
  (serde.fromStrValue call.function.arguments).getD (Json.obj [])

lemma processCall_snd (serde : Serde) (st : AgentState) (history : List Message)
    (call : ToolCall) :
    (Agent.processCall serde (st, history) call).2 =
      history ++ [toolResultMessage call (toolCallResultStr serde
        (st.client.call_tool serde call.function.name (parsedArgs serde call)).2)] := rfl

lemma processCall_llm (serde : Serde) (st : AgentState) (history : List Message)
    (call : ToolCall) :
    (Agent.processCall serde (st, history) call).1.llm = st.llm := rfl

lemma processCall_events (serde : Serde) (st : AgentState) (history : List Message)
    (call : ToolCall) :
    (Agent.processCall serde (st, history) call).1.events =
      st.events ++
        [UiMessage.Log ("EXEC: " ++ call.function.name ++ "(" ++ call.function.arguments ++ ")")]
        ++ [UiMessage.Log ("RESULT: " ++ toolCallResultStr serde
              (st.client.call_tool serde call.function.name (parsedArgs serde call)).2)] := rfl

/-- Processing a tool-call list in `Agent::cycle` appends exactly one
`tool`-role message per call, with the call ids in order, touches
neither the completion service nor the `Ai`/`Error` event counts. -/
lemma processCalls_shape (serde : Serde) (calls : List ToolCall) :
    ∀ (st : AgentState) (history : List Message),
      ∃ msgs : List Message,
        (Agent.processCalls serde st history calls).2 = history ++ msgs ∧
        msgs.length = calls.length ∧
        msgs.map Message.role = List.replicate calls.length "tool" ∧
        msgs.map Message.tool_call_id = calls.map (fun c => some c.id) ∧
        (Agent.processCalls serde st history calls).1.llm = st.llm ∧
        countAi (Agent.processCalls serde st history calls).1.events = countAi st.events ∧
        countError (Agent.processCalls serde st history calls).1.events =
          countError st.events := by
  induction calls with
  | nil =>
    intro st history
    exact ⟨[], (List.append_nil history).symm, rfl, rfl, rfl, rfl, rfl, rfl⟩
  | cons call calls ih =>
    intro st history
    have hstep : Agent.processCalls serde st history (call :: calls) =
        Agent.processCalls serde (Agent.processCall serde (st, history) call).1
          (Agent.processCall serde (st, history) call).2 calls := rfl
    obtain ⟨msgs, h1, h2, h3, h4, h5, h6, h7⟩ :=
      ih (Agent.processCall serde (st, history) call).1
        (Agent.processCall serde (st, history) call).2
    refine ⟨toolResultMessage call (toolCallResultStr serde
        (st.client.call_tool serde call.function.name (parsedArgs serde call)).2) :: msgs,
      ?_, ?_, ?_, ?_, ?_, ?_, ?_⟩
    · rw [hstep, h1, processCall_snd]
      simp
    · simp [h2]
    · simp only [List.map_cons, h3, List.replicate]
      rfl
    · simp only [List.map_cons, h4]
      rfl
    · rw [hstep, h5, processCall_llm]
    · rw [hstep, h6, processCall_events, countAi_append, countAi_append, countAi_log,
        countAi_log]
      omega
    · rw [hstep, h7, processCall_events, countError_append, countError_append,
        countError_log, countError_log]
      omega

lemma mainProcessCall_history (serde : Serde) (st : MainState) (call : ToolCall) :
    (mainProcessCall serde st call).history =
      st.history ++ [toolResultMessage call (toolCallResultStr serde
        (st.client.call_tool serde call.function.name (parsedArgs serde call)).2)] := rfl

lemma mainProcessCall_llm (serde : Serde) (st : MainState) (call : ToolCall) :
    (mainProcessCall serde st call).llm = st.llm := rfl

lemma mainProcessCall_countAi (serde : Serde) (st : MainState) (call : ToolCall) :
    countAi (mainProcessCall serde st call).events = countAi st.events := by
  unfold mainProcessCall
  dsimp only
  rcases (st.client.call_tool serde call.function.name
      ((serde.fromStrValue call.function.arguments).getD (Json.obj []))).2 with e | v <;>
    · rw [countAi_append, countAi_append]
      norm_num [countAi_log]
      try rfl

/-- Processing a tool-call list in `main` appends exactly one
`tool`-role message per call with the call ids in order, makes no
completion request, and emits no `Ai` event. -/
lemma mainProcessCalls_shape (serde : Serde) (calls : List ToolCall) :
    ∀ st : MainState,
      ∃ msgs : List Message,
        (calls.foldl (mainProcessCall serde) st).history = st.history ++ msgs ∧
        msgs.length = calls.length ∧
        msgs.map Message.role = List.replicate calls.length "tool" ∧
        msgs.map Message.tool_call_id = calls.map (fun c => some c.id) ∧
        (calls.foldl (mainProcessCall serde) st).llm = st.llm ∧
        countAi (calls.foldl (mainProcessCall serde) st).events = countAi st.events := by
  induction calls with
  | nil =>
    intro st
    exact ⟨[], (List.append_nil st.history).symm, rfl, rfl, rfl, rfl, rfl⟩
  | cons call calls ih =>
    intro st
    have hstep : (call :: calls).foldl (mainProcessCall serde) st =
        calls.foldl (mainProcessCall serde) (mainProcessCall serde st call) := rfl
    obtain ⟨msgs, h1, h2, h3, h4, h5, h6⟩ := ih (mainProcessCall serde st call)
    refine ⟨toolResultMessage call (toolCallResultStr serde
        (st.client.call_tool serde call.function.name (parsedArgs serde call)).2) :: msgs,
      ?_, ?_, ?_, ?_, ?_, ?_⟩
    · rw [hstep, h1, mainProcessCall_history]
      simp
    · simp [h2]
    · simp only [List.map_cons, h3, List.replicate]
      rfl
    · simp only [List.map_cons, h4]
      rfl
    · rw [hstep, h5, mainProcessCall_llm]
    · rw [hstep, h6, mainProcessCall_countAi]

/-! ## C3 — the tool-use turn -/

/-- C3: in a turn whose completion reply carries `k ≥ 1` tool calls,
both orchestrator implementations append the assistant message, then —
processing the calls in the order received — exactly `k` `tool`-role
entries whose `tool_call_id`s equal the request ids in order, then issue
exactly one further completion request with an empty tool list, and emit
exactly one outbound `Ai` event for the final answer. -/
theorem tool_turn_shape (serde : Serde) (tools : List Tool) (resp final_res : Message)
    (calls : List ToolCall) (rest : List (Except String Message))
    (hcalls : resp.tool_calls = some calls) (_hk : calls ≠ []) :
    (∀ (st : AgentState) (history : List Message),
      st.llm.replies = .ok resp :: .ok final_res :: rest →
      ∃ msgs : List Message,
        (Agent.cycle serde st history tools).2.1 =
          history ++ resp :: (msgs ++ [final_res]) ∧
        msgs.length = calls.length ∧
        msgs.map Message.role = List.replicate calls.length "tool" ∧
        msgs.map Message.tool_call_id = calls.map (fun c => some c.id) ∧
        (Agent.cycle serde st history tools).1.llm.requests =
          st.llm.requests ++ [(history, tools), (history ++ resp :: msgs, [])] ∧
        countAi (Agent.cycle serde st history tools).1.events = countAi st.events + 1 ∧
        (Agent.cycle serde st history tools).2.2 = .ok ()) ∧
    (∀ (st : MainState) (user_input : String),
      st.llm.replies = .ok resp :: .ok final_res :: rest →
      ∃ msgs : List Message,
        (mainTurn serde tools st user_input).history =
          st.history ++ userMessage user_input :: resp :: (msgs ++ [final_res]) ∧
        msgs.length = calls.length ∧
        msgs.map Message.role = List.replicate calls.length "tool" ∧
        msgs.map Message.tool_call_id = calls.map (fun c => some c.id) ∧
        (mainTurn serde tools st user_input).llm.requests =
          st.llm.requests ++
            [(st.history ++ [userMessage user_input], tools),
             (st.history ++ userMessage user_input :: resp :: msgs, [])] ∧
        countAi (mainTurn serde tools st user_input).events = countAi st.events + 1) := by
  constructor
  · intro st history hrep
    have hsend := llm_send_of_replies st.llm (.ok resp) (.ok final_res :: rest)
      hrep history tools
    obtain ⟨msgs, h1, h2, h3, h4, h5, h6, h7⟩ :=
      processCalls_shape serde calls
        { client := st.client
          llm := { replies := Except.ok final_res :: rest
                   requests := st.llm.requests ++ [(history, tools)] }
          events := st.events ++
            [UiMessage.Log ("Tools Requested: " ++ toString calls.length)] }
        (history ++ [resp])
    refine ⟨msgs, ?_, h2, h3, h4, ?_, ?_, ?_⟩
    · unfold Agent.cycle
      rw [hsend]
      dsimp only
      rw [hcalls]
      dsimp only
      rw [llm_send_of_replies _ (.ok final_res) rest (by rw [h5]) _ []]
      dsimp only
      rw [h1]
      simp
    · unfold Agent.cycle
      rw [hsend]
      dsimp only
      rw [hcalls]
      dsimp only
      rw [llm_send_of_replies _ (.ok final_res) rest (by rw [h5]) _ []]
      dsimp only
      rw [h5, h1]
      simp
    · unfold Agent.cycle
      rw [hsend]
      dsimp only
      rw [hcalls]
      dsimp only
      rw [llm_send_of_replies _ (.ok final_res) rest (by rw [h5]) _ []]
      dsimp only
      rw [countAi_append, h6, countAi_append, countAi_log, countAi_ai]
    · unfold Agent.cycle
      rw [hsend]
      dsimp only
      rw [hcalls]
      dsimp only
      rw [llm_send_of_replies _ (.ok final_res) rest (by rw [h5]) _ []]
  · intro st user_input hrep
    have hsend := llm_send_of_replies st.llm (.ok resp) (.ok final_res :: rest)
      hrep (st.history ++ [userMessage user_input]) tools
    obtain ⟨msgs, h1, h2, h3, h4, h5, h6⟩ :=
      mainProcessCalls_shape serde calls
        { client := st.client
          llm := { replies := Except.ok final_res :: rest
                   requests := st.llm.requests ++
                     [(st.history ++ [userMessage user_input], tools)] }
          events := st.events ++ [UiMessage.Log "Processing Request..."] ++
            [UiMessage.Log ("AI Invoking " ++ toString calls.length ++ " Tools...")]
          history := st.history ++ [userMessage user_input] ++ [resp] }
    refine ⟨msgs, ?_, h2, h3, h4, ?_, ?_⟩
    · unfold mainTurn
      dsimp only
      rw [hsend]
      dsimp only
      rw [hcalls]
      dsimp only
      unfold mainFinalAnswer
      rw [h5]
      dsimp only
      rw [llm_send_of_replies _ (.ok final_res) rest rfl _ []]
      dsimp only
      rw [h1]
      simp
    · unfold mainTurn
      dsimp only
      rw [hsend]
      dsimp only
      rw [hcalls]
      dsimp only
      unfold mainFinalAnswer
      rw [h5]
      dsimp only
      rw [llm_send_of_replies _ (.ok final_res) rest rfl _ []]
      dsimp only
      rw [h1]
      simp
    · unfold mainTurn
      dsimp only
      rw [hsend]
      dsimp only
      rw [hcalls]
      dsimp only
      unfold mainFinalAnswer
      rw [h5]
      dsimp only
      rw [llm_send_of_replies _ (.ok final_res) rest rfl _ []]
      dsimp only
      rw [countAi_append, h6, countAi_append, countAi_append, countAi_log, countAi_log,
        countAi_ai]

/-! ## More concrete fixtures -/

/-- An allow-by-default policy with no per-tool rules. -/
def cfgAllowAll : SecurityConfig :=
  { version := "1.0", global_policy := "allow", rules := [] }

/-- A tool call whose argument text is not valid JSON. -/
def callW : ToolCall :=
  { id := "call_1", rtype := "function",
    function := { name := "calculate_sum", arguments := "bad json" } }

/-- An assistant reply requesting exactly one tool call. -/
def respToolUse : Message :=
  { role := "assistant", content := none, tool_calls := some [callW],
    tool_call_id := none }

/-- A plain final-answer assistant reply. -/
def finalAnswerMsg : Message :=
  { role := "assistant", content := some "The sum is 4", tool_calls := none,
    tool_call_id := none }

/-- An agent state scripted for one tool-use turn that succeeds. -/
def agentStW : AgentState :=
  { client := McpClient.new (McpProcess.start []) cfgDenyDefault
    llm := { replies := [.ok respToolUse, .ok finalAnswerMsg], requests := [] }
    events := [] }

/-- Witness for C3 at a concrete one-call turn. -/
theorem tool_turn_shape_witness :
    ∃ msgs : List Message,
      (Agent.cycle serdeNoParse agentStW [] []).2.1 =
        [] ++ respToolUse :: (msgs ++ [finalAnswerMsg]) ∧
      msgs.length = [callW].length ∧
      msgs.map Message.role = List.replicate [callW].length "tool" ∧
      msgs.map Message.tool_call_id = [callW].map (fun c => some c.id) ∧
      (Agent.cycle serdeNoParse agentStW [] []).1.llm.requests =
        agentStW.llm.requests ++ [([], []), ([] ++ respToolUse :: msgs, [])] ∧
      countAi (Agent.cycle serdeNoParse agentStW [] []).1.events =
        countAi agentStW.events + 1 ∧
      (Agent.cycle serdeNoParse agentStW [] []).2.2 = .ok () :=
  (tool_turn_shape serdeNoParse [] respToolUse finalAnswerMsg [callW] []
    rfl (by decide)).1 agentStW [] rfl

/-! ## C8 — malformed tool-call arguments degrade to an empty object -/

lemma processCall_client (serde : Serde) (st : AgentState) (history : List Message)
    (call : ToolCall) :
    (Agent.processCall serde (st, history) call).1.client =
      (st.client.call_tool serde call.function.name (parsedArgs serde call)).1 := rfl

lemma mainProcessCall_client (serde : Serde) (st : MainState) (call : ToolCall) :
    (mainProcessCall serde st call).client =
      (st.client.call_tool serde call.function.name (parsedArgs serde call)).1 := rfl

/-- C8: a tool call whose argument text fails to parse does not abort or
error the turn — the per-call handler still appends its single `tool`
message, and `call_tool` is invoked with the empty JSON object, which
(when the gate allows the call) is exactly what goes on the wire. -/
theorem malformed_args_degrade (serde : Serde) (call : ToolCall)
    (hparse : serde.fromStrValue call.function.arguments = none) :
    (∀ (st : AgentState) (history : List Message),
      st.client.security.check_permission call.function.name = true →
      (Agent.processCall serde (st, history) call).2 =
        history ++ [toolResultMessage call (toolCallResultStr serde
          (st.client.call_tool serde call.function.name (Json.obj [])).2)] ∧
      (Agent.processCall serde (st, history) call).1.client.transport.sent =
        st.client.transport.sent ++
          [toolsCallRequest call.function.name (Json.obj [])
            (st.client.request_id_counter + 1)]) ∧
    (∀ st : MainState,
      st.client.security.check_permission call.function.name = true →
      (mainProcessCall serde st call).history =
        st.history ++ [toolResultMessage call (toolCallResultStr serde
          (st.client.call_tool serde call.function.name (Json.obj [])).2)] ∧
      (mainProcessCall serde st call).client.transport.sent =
        st.client.transport.sent ++
          [toolsCallRequest call.function.name (Json.obj [])
            (st.client.request_id_counter + 1)]) := by
  have hargs : ∀ _ : Unit, parsedArgs serde call = Json.obj [] := by
    intro _
    unfold parsedArgs
    rw [hparse]
    rfl
  constructor
  · intro st history hallow
    constructor
    · rw [processCall_snd, hargs ()]
    · rw [processCall_client, hargs (), call_tool_allowed_fst serde st.client _ _ hallow]
      exact (exchange_parts _ _).1
  · intro st hallow
    constructor
    · rw [mainProcessCall_history, hargs ()]
    · rw [mainProcessCall_client, hargs (), call_tool_allowed_fst serde st.client _ _ hallow]
      exact (exchange_parts _ _).1

/-- An agent state over the allow-all policy. -/
def agentStAllow : AgentState :=
  { client := McpClient.new (McpProcess.start []) cfgAllowAll
    llm := { replies := [], requests := [] }
    events := [] }

/-- A main-loop state over the allow-all policy. -/
def mstAllow : MainState :=
  { client := McpClient.new (McpProcess.start []) cfgAllowAll
    llm := { replies := [], requests := [] }
    events := []
    history := [] }

/-- Witness for C8: the unparsable argument text "bad json" leads to a
`tools/call` request carrying the empty object, in both loops. -/
theorem malformed_args_degrade_witness :
    ((Agent.processCall serdeNoParse (agentStAllow, []) callW).2 =
      [] ++ [toolResultMessage callW (toolCallResultStr serdeNoParse
        (agentStAllow.client.call_tool serdeNoParse callW.function.name (Json.obj [])).2)] ∧
     (Agent.processCall serdeNoParse (agentStAllow, []) callW).1.client.transport.sent =
      agentStAllow.client.transport.sent ++
        [toolsCallRequest callW.function.name (Json.obj [])
          (agentStAllow.client.request_id_counter + 1)]) ∧
    ((mainProcessCall serdeNoParse mstAllow callW).history =
      mstAllow.history ++ [toolResultMessage callW (toolCallResultStr serdeNoParse
        (mstAllow.client.call_tool serdeNoParse callW.function.name (Json.obj [])).2)] ∧
     (mainProcessCall serdeNoParse mstAllow callW).client.transport.sent =
      mstAllow.client.transport.sent ++
        [toolsCallRequest callW.function.name (Json.obj [])
          (mstAllow.client.request_id_counter + 1)]) :=
  ⟨(malformed_args_degrade serdeNoParse callW rfl).1 agentStAllow [] (by decide),
   (malformed_args_degrade serdeNoParse callW rfl).2 mstAllow (by decide)⟩

/-! ## C5 — reporting of completion-service failures -/

/-- A main-loop state scripted so the first completion reply requests
one tool call (which will succeed against the transport) and the
final-answer completion fails. -/
def mstFinalFail : MainState :=
  { client := McpClient.new (McpProcess.start ['x', '\n']) cfgAllowAll
    llm := { replies := [.ok respToolUse, .error "boom"], requests := [] }
    events := []
    history := [] }

/-- Counterexample to C5 as stated: in this concrete turn the
completion service fails at the final-answer request, yet the main loop
emits no `Error` event at all (and no `Ai` event) — the failure is
silently swallowed rather than reported to the Display Surface. -/
theorem final_failure_swallowed_cex :
    countError (mainTurn serdeAllOk [] mstFinalFail "hi").events = 0 ∧
    countAi (mainTurn serdeAllOk [] mstFinalFail "hi").events = 0 := by decide

/-- C5 (amended): a completion failure during the initial Thinking
request is reported as a turn-level `Error` event by both loops, and a
failure during the final-answer request is reported by `Agent::run`;
the `main` loop, however, swallows a final-answer failure without any
event.  In every case the turn ends (the loop returns to waiting for
input) and the transcript entries already appended are left in place. -/
theorem completion_failure_reporting (serde : Serde) :
    (∀ (st : AgentState) (history : List Message) (tools : List Tool) (input e : String)
        (rest : List (Except String Message)),
      st.llm.replies = .error e :: rest →
      (Agent.turn serde tools (st, history) input).1.events =
        st.events ++
          [UiMessage.Log "Thinking...", UiMessage.Error ("Cycle Error: " ++ e)] ∧
      (Agent.turn serde tools (st, history) input).2 = history ++ [userMessage input]) ∧
    (∀ (st : AgentState) (history : List Message) (tools : List Tool) (input e : String)
        (resp : Message) (calls : List ToolCall) (rest : List (Except String Message)),
      st.llm.replies = .ok resp :: .error e :: rest →
      resp.tool_calls = some calls →
      ∃ msgs : List Message,
        (Agent.turn serde tools (st, history) input).2 =
          history ++ userMessage input :: resp :: msgs ∧
        msgs.length = calls.length ∧
        countError (Agent.turn serde tools (st, history) input).1.events =
          countError st.events + 1 ∧
        countAi (Agent.turn serde tools (st, history) input).1.events =
          countAi st.events) ∧
    (∀ (st : MainState) (tools : List Tool) (input e : String)
        (rest : List (Except String Message)),
      st.llm.replies = .error e :: rest →
      (mainTurn serde tools st input).events =
        st.events ++
          [UiMessage.Log "Processing Request...", UiMessage.Error ("LLM Error: " ++ e)] ∧
      (mainTurn serde tools st input).history = st.history ++ [userMessage input]) ∧
    (∀ (st : MainState) (e : String) (rest : List (Except String Message)),
      st.llm.replies = .error e :: rest →
      (mainFinalAnswer st).events = st.events ∧
      (mainFinalAnswer st).history = st.history ∧
      (mainFinalAnswer st).llm.requests = st.llm.requests ++ [(st.history, [])]) := by
  refine ⟨?_, ?_, ?_, ?_⟩
  · intro st history tools input e rest hrep
    have hsend := llm_send_of_replies st.llm (.error e) rest hrep
      (history ++ [userMessage input]) tools
    unfold Agent.turn Agent.cycle
    dsimp only
    rw [hsend]
    dsimp only
    exact ⟨by simp, rfl⟩
  · intro st history tools input e resp calls rest hrep hcalls
    have hsend := llm_send_of_replies st.llm (.ok resp) (.error e :: rest) hrep
      (history ++ [userMessage input]) tools
    obtain ⟨msgs, h1, h2, h3, h4, h5, h6, h7⟩ :=
      processCalls_shape serde calls
        { client := st.client
          llm := { replies := Except.error e :: rest
                   requests := st.llm.requests ++ [(history ++ [userMessage input], tools)] }
          events := (st.events ++ [UiMessage.Log "Thinking..."]) ++
            [UiMessage.Log ("Tools Requested: " ++ toString calls.length)] }
        ((history ++ [userMessage input]) ++ [resp])
    refine ⟨msgs, ?_, h2, ?_, ?_⟩
    · unfold Agent.turn Agent.cycle
      dsimp only
      rw [hsend]
      dsimp only
      rw [hcalls]
      dsimp only
      rw [llm_send_of_replies _ (.error e) rest (by rw [h5]) _ []]
      dsimp only
      rw [h1]
      simp
    · unfold Agent.turn Agent.cycle
      dsimp only
      rw [hsend]
      dsimp only
      rw [hcalls]
      dsimp only
      rw [llm_send_of_replies _ (.error e) rest (by rw [h5]) _ []]
      dsimp only
      rw [countError_append, h7, countError_append, countError_append, countError_log,
        countError_log, countError_err]
      try omega
    · unfold Agent.turn Agent.cycle
      dsimp only
      rw [hsend]
      dsimp only
      rw [hcalls]
      dsimp only
      rw [llm_send_of_replies _ (.error e) rest (by rw [h5]) _ []]
      dsimp only
      rw [countAi_append, h6, countAi_append, countAi_append, countAi_log, countAi_log,
        countAi_err]
      omega
  · intro st tools input e rest hrep
    have hsend := llm_send_of_replies st.llm (.error e) rest hrep
      (st.history ++ [userMessage input]) tools
    unfold mainTurn
    dsimp only
    rw [hsend]
    dsimp only
    exact ⟨by simp, rfl⟩
  · intro st e rest hrep
    have hsend := llm_send_of_replies st.llm (.error e) rest hrep st.history []
    unfold mainFinalAnswer
    dsimp only
    rw [hsend]
    dsimp only
    exact ⟨rfl, rfl, rfl⟩

/-- An agent state whose first scripted completion reply is a failure. -/
def agentStFail : AgentState :=
  { client := McpClient.new (McpProcess.start []) cfgDenyDefault
    llm := { replies := [.error "boom"], requests := [] }
    events := [] }

/-- A main-loop state whose next scripted completion reply fails. -/
def mstFail : MainState :=
  { client := McpClient.new (McpProcess.start []) cfgDenyDefault
    llm := { replies := [.error "boom"], requests := [] }
    events := []
    history := [] }

/-- Witness for C5 (amended): concrete instances of the initial-failure
reporting in both loops and of the silent main-loop final-answer path. -/
theorem completion_failure_reporting_witness :
    ((Agent.turn serdeNoParse [] (agentStFail, []) "hi").1.events =
        agentStFail.events ++
          [UiMessage.Log "Thinking...", UiMessage.Error ("Cycle Error: " ++ "boom")] ∧
     (Agent.turn serdeNoParse [] (agentStFail, []) "hi").2 =
        [] ++ [userMessage "hi"]) ∧
    ((mainTurn serdeNoParse [] mstFail "hi").events =
        mstFail.events ++
          [UiMessage.Log "Processing Request...",
           UiMessage.Error ("LLM Error: " ++ "boom")] ∧
     (mainTurn serdeNoParse [] mstFail "hi").history =
        mstFail.history ++ [userMessage "hi"]) ∧
    ((mainFinalAnswer mstFail).events = mstFail.events ∧
     (mainFinalAnswer mstFail).history = mstFail.history ∧
     (mainFinalAnswer mstFail).llm.requests =
        mstFail.llm.requests ++ [(mstFail.history, [])]) :=
  ⟨(completion_failure_reporting serdeNoParse).1 agentStFail [] [] "hi" "boom" [] rfl,
   (completion_failure_reporting serdeNoParse).2.2.1 mstFail [] "hi" "boom" [] rfl,
   (completion_failure_reporting serdeNoParse).2.2.2 mstFail "boom" [] rfl⟩

/-! ## C4 — tool-discovery failure at startup -/

/-- Counterexample to C4 as stated: with a transport that serves the
handshake and then closes, `main`'s startup reports the discovery
failure but still enters the conversation loop (the option is `some`)
with an empty tool list, instead of terminating. -/
theorem startup_discovery_failure_cex :
    (mainStartup serdeAllOk (.ok cfgDenyDefault) (.ok (McpProcess.start ['x', '\n']))
        (.ok ())).2.isSome = true ∧
    (mainStartup serdeAllOk (.ok cfgDenyDefault) (.ok (McpProcess.start ['x', '\n']))
        (.ok ())).1 =
      [UiMessage.Log "Initializing Core Systems...",
       UiMessage.Error "Tool List Fail: Process closed the connection (EOF)",
       UiMessage.Log "Tools Loaded: 0",
       UiMessage.Log "Neural Engine Online."] := by decide

/-- C4 (amended): when tool discovery fails at startup, `Agent::run`
reports it once and terminates without consuming any user input, as the
claim says; `main`, however, reports the failure and then continues
into the conversation loop with an empty tool list (its other startup
steps — policy load, spawn, handshake — do abort on failure). -/
theorem discovery_failure_handling (serde : Serde) :
    (∀ (st : AgentState) (inputs : List String) (e : String),
      (st.client.list_tools serde).2 = .error e →
      Agent.run serde st inputs =
        ({ client := (st.client.list_tools serde).1
           llm := st.llm
           events := st.events ++
             [UiMessage.Log "Agent System Online.",
              UiMessage.Error ("Critical Tool Failure: " ++ e)] }, [])) ∧
    (∀ (cfg : SecurityConfig) (p : McpProcess) (e : String),
      ((McpClient.new p cfg).handshake serde).2 = .ok () →
      (((McpClient.new p cfg).handshake serde).1.list_tools serde).2 = .error e →
      mainStartup serde (.ok cfg) (.ok p) (.ok ()) =
        ([UiMessage.Log "Initializing Core Systems...",
          UiMessage.Error ("Tool List Fail: " ++ e),
          UiMessage.Log "Tools Loaded: 0",
          UiMessage.Log "Neural Engine Online."],
         some ((((McpClient.new p cfg).handshake serde).1.list_tools serde).1, []))) := by
  constructor
  · intro st inputs e hdisc
    unfold Agent.run
    dsimp only
    rw [hdisc]
    dsimp only
    simp
  · intro cfg p e hhs hdisc
    unfold mainStartup
    dsimp only
    rw [hhs]
    dsimp only
    rw [hdisc]
    dsimp only
    rfl

/-- Witness for C4 (amended) at the concrete startup scenario of the
counterexample. -/
theorem discovery_failure_handling_witness :
    (Agent.run serdeNoParse agentStFail ["hi"] =
      ({ client := (agentStFail.client.list_tools serdeNoParse).1
         llm := agentStFail.llm
         events := agentStFail.events ++
           [UiMessage.Log "Agent System Online.",
            UiMessage.Error ("Critical Tool Failure: " ++
              "Process closed the connection (EOF)")] }, [])) ∧
    (mainStartup serdeAllOk (.ok cfgDenyDefault) (.ok (McpProcess.start ['x', '\n']))
        (.ok ()) =
      ([UiMessage.Log "Initializing Core Systems...",
        UiMessage.Error ("Tool List Fail: " ++ "Process closed the connection (EOF)"),
        UiMessage.Log "Tools Loaded: 0",
        UiMessage.Log "Neural Engine Online."],
       some ((((McpClient.new (McpProcess.start ['x', '\n']) cfgDenyDefault).handshake
           serdeAllOk).1.list_tools serdeAllOk).1, []))) :=
  ⟨(discovery_failure_handling serdeNoParse).1 agentStFail ["hi"]
      "Process closed the connection (EOF)" rfl,
   (discovery_failure_handling serdeAllOk).2 cfgDenyDefault
      (McpProcess.start ['x', '\n']) "Process closed the connection (EOF)" rfl rfl⟩

end Aether
